import Mathlib

/-!
Verification of the gated Python code-execution tool
(`src/custom_code_agent.py`, class `PythonCodeExecutorTool`).

The embedding models:
* `_clean_code` (lines 31-43) as `cleanCode`, built from `stripC`
  (Python `str.strip`) and the two fence-removal steps;
* the rendering of a finished subprocess (lines 71-86) as
  `renderCompleted`;
* `_run` (lines 45-91) as `runTool`, where the outcome of the spawned
  interpreter (normal exit, `subprocess.TimeoutExpired`, or any other
  exception inside the `try` block) is an oracle value `ProcResult`,
  and the two observable side effects of `_run` — whether the
  confirmation prompt was issued and whether a subprocess was spawned —
  are recorded as booleans in `RunResult`.
Python's `str(int)` used by the f-strings is modelled by `intStr`.
-/

namespace CustomCodeAgent

/-- Whitespace characters removed by Python's `str.strip()` (ASCII range). -/
def pyWs (c : Char) : Bool :=
  c = ' ' || c = '\t' || c = '\n' || c = '\r' || c = '\x0b' || c = '\x0c'

/-- Drop leading whitespace, as in Python `str.lstrip()`. -/
def lstripC (l : List Char) : List Char := l.dropWhile pyWs

/-- Drop trailing whitespace, as in Python `str.rstrip()`. -/
def rstripC (l : List Char) : List Char := (l.reverse.dropWhile pyWs).reverse

/-- Python `str.strip()`: drop whitespace at both ends. -/
def stripC (l : List Char) : List Char := rstripC (lstripC l)

/-- `str.strip()` lifted to `String`. -/
def pyStrip (s : String) : String := String.mk (stripC s.data)

/-- The bare fenced-code marker checked by `_clean_code`. -/
def fenceMarker : List Char := "```".data

/-- The language-tagged opening marker checked by `_clean_code`. -/
def fencePython : List Char := "```python".data

/-- Lines 35-39 of `_clean_code`: remove a leading fence marker
(language-tagged first, else bare) and re-strip. -/
def cleanStep1 (code : List Char) : List Char :=
  if fencePython.isPrefixOf code then stripC (code.drop 9)
  else if fenceMarker.isPrefixOf code then stripC (code.drop 3)
  else code

/-- Lines 41-42 of `_clean_code`: remove a trailing fence marker and
re-strip. -/
def cleanStep2 (code : List Char) : List Char :=
  if fenceMarker.isSuffixOf code then stripC (code.take (code.length - 3))
  else code

/-- `_clean_code` on character lists: strip, leading-fence step,
trailing-fence step. -/
def cleanChars (s : List Char) : List Char := cleanStep2 (cleanStep1 (stripC s))

/-- `PythonCodeExecutorTool._clean_code` (lines 31-43). -/
def cleanCode (s : String) : String := String.mk (cleanChars s.data)

/-- Decimal digit character, used to model Python's `str(int)`. -/
def digitChar (d : Nat) : Char :=
  if d = 0 then '0' else if d = 1 then '1' else if d = 2 then '2'
  else if d = 3 then '3' else if d = 4 then '4' else if d = 5 then '5'
  else if d = 6 then '6' else if d = 7 then '7' else if d = 8 then '8'
  else '9'

/-- Fuel-driven decimal rendering of a natural number (most significant
digit first). Fuel `n + 1` always suffices. -/
def natReprAux : Nat → Nat → List Char
  | 0, _ => []
  | fuel + 1, n =>
    if n < 10 then [digitChar n]
    else natReprAux fuel (n / 10) ++ [digitChar (n % 10)]

/-- Decimal digits of a natural number. -/
def natStr (n : Nat) : List Char := natReprAux (n + 1) n

/-- Python's `str(int)`: an optional minus sign followed by decimal
digits. -/
def intStr (i : Int) : String :=
  if i < 0 then String.mk ('-' :: natStr (-i).toNat) else String.mk (natStr i.toNat)

/-- Python's substring containment `pat in s`. -/
def hasSub (pat : List Char) : List Char → Bool
  | [] => pat.isPrefixOf []
  | c :: t => pat.isPrefixOf (c :: t) || hasSub pat t

/-- Python's `"\n".join`. -/
def joinNL : List String → String
  | [] => ""
  | [s] => s
  | s :: t => s ++ "\n" ++ joinNL t

/-- Line 55: message returned when no code survives cleaning. -/
def emptyMsg : String :=
  "Error: No valid Python code provided after cleaning. The input might have been empty or only markdown."

/-- Line 60: message returned when the operator declines. -/
def cancelMsg : String := "Code execution CANCELED by user."

/-- Line 89: message returned on `subprocess.TimeoutExpired`. -/
def timeoutMsg : String := "Error: Code execution timed out after 60 seconds."

/-- Line 91: message returned when the execution mechanism raises. -/
def exnMsg (m : String) : String :=
  "An unexpected error occurred during Python code execution: " ++ m

/-- Line 80: success-with-no-output sentence. -/
def successMsg : String :=
  "Code executed successfully with no output to stdout or stderr."

/-- Fixed prefix of the line-82 failure sentence. -/
def failPre : String := "Code execution failed with return code "

/-- Fixed suffix of the line-82 failure sentence. -/
def failSuf : String := " and no specific error message."

/-- Line 82: failure sentence for empty output and nonzero exit code. -/
def failMsg (rc : Int) : String := failPre ++ intStr rc ++ failSuf

/-- Line 84: trailing return-code note. -/
def noteMsg (rc : Int) : String :=
  "\nCode execution finished with return code: " ++ intStr rc

/-- Line 73: labeled standard-output block. -/
def outBlock (out : String) : String := "Standard Output:\n" ++ pyStrip out

/-- Line 75: labeled standard-error block. -/
def errBlock (err : String) : String := "Standard Error:\n" ++ pyStrip err

/-- The substring tested by line 83's containment check. -/
def seLabel : List Char := "Standard Error".data

/-- Lines 71-77: build `output_parts` and join with newlines. -/
def renderParts (out err : String) : List String :=
  (if out = "" then [] else [outBlock out]) ++
    (if err = "" then [] else [errBlock err])

/-- Lines 79-84: the message-fixup `if/elif` chain on `result_message`. -/
def renderMsg2 (msg : String) (rc : Int) : String :=
  if msg = "" ∧ rc = 0 then successMsg
  else if msg = "" ∧ rc ≠ 0 then failMsg rc
  else if rc ≠ 0 ∧ hasSub seLabel msg.data = false then msg ++ noteMsg rc
  else msg

/-- Lines 71-86: rendering of a subprocess that finished within the
deadline, final `.strip()` included. -/
def renderCompleted (out err : String) (rc : Int) : String :=
  pyStrip (renderMsg2 (joinNL (renderParts out err)) rc)

/-- The `timeout=60` argument passed to `subprocess.run` (line 67). -/
def executionTimeout : Nat := 60

/-- Oracle for what the spawned interpreter does: a normal exit with
captured streams and return code, a deadline expiry (with whatever
partial streams the child produced, which `_run` ignores), or any other
exception raised inside the `try` block. -/
inductive ProcResult where
  | completed (out err : String) (rc : Int)
  | timeout (po pe : String)
  | exn (msg : String)
deriving DecidableEq, Repr

/-- Observable result of one `_run` call: the returned string, whether
the confirmation prompt was issued, and whether a subprocess was
spawned. -/
structure RunResult where
  output : String
  prompted : Bool
  spawned : Bool
deriving DecidableEq, Repr

/-- Python's `str.lower()` as used on the confirmation response,
lowercasing each character. -/
def pyLower (s : String) : String := String.mk (s.data.map Char.toLower)

/-- `PythonCodeExecutorTool._run` (lines 45-91). The `input()` call is
modelled by the `confirm` argument, the spawned interpreter by `proc`. -/
def runTool (code confirm : String) (proc : ProcResult) : RunResult :=
  if cleanCode code = "" then ⟨emptyMsg, false, false⟩
  else if pyLower confirm ≠ "y" then ⟨cancelMsg, true, false⟩
  else
    match proc with
    | .completed out err rc => ⟨renderCompleted out err rc, true, true⟩
    | .timeout _ _ => ⟨timeoutMsg, true, true⟩
    | .exn m => ⟨exnMsg m, true, true⟩

/-! ## Helper lemmas about stripping -/

theorem dropWhile_self (p : Char → Bool) (l : List Char) :
    (l.dropWhile p).dropWhile p = l.dropWhile p := by
  induction l with
  | nil => rfl
  | cons a t ih =>
    rw [List.dropWhile_cons]
    split
    · exact ih
    · next h => rw [List.dropWhile_cons_of_neg h]

theorem lstripC_idem (l : List Char) : lstripC (lstripC l) = lstripC l :=
  dropWhile_self pyWs l

theorem rstripC_idem (l : List Char) : rstripC (rstripC l) = rstripC l := by
  unfold rstripC
  rw [List.reverse_reverse, dropWhile_self]

theorem lstripC_cons_of_neg (a : Char) (t : List Char) (h : pyWs a = false) :
    lstripC (a :: t) = a :: t := by
  unfold lstripC
  rw [List.dropWhile_cons_of_neg (by simp [h])]

theorem rstripC_append_right (l₁ l₂ : List Char) (h : rstripC l₂ ≠ []) :
    rstripC (l₁ ++ l₂) = l₁ ++ rstripC l₂ := by
  have h2 : l₂.reverse.dropWhile pyWs ≠ [] := by
    intro hh
    apply h
    unfold rstripC
    rw [hh, List.reverse_nil]
  unfold rstripC
  rw [List.reverse_append, List.dropWhile_append, if_neg (by simpa using h2),
    List.reverse_append, List.reverse_reverse]

theorem rstripC_cons_of_neg (a : Char) (t : List Char) (h : pyWs a = false) :
    ∃ u, rstripC (a :: t) = a :: u := by
  unfold rstripC
  rw [List.reverse_cons, List.dropWhile_append]
  have hone : List.dropWhile pyWs [a] = [a] :=
    List.dropWhile_cons_of_neg (by simp [h])
  by_cases hd : (t.reverse.dropWhile pyWs).isEmpty = true
  · rw [if_pos hd, hone]
    exact ⟨[], rfl⟩
  · rw [if_neg hd]
    exact ⟨(t.reverse.dropWhile pyWs).reverse, by simp⟩

theorem pyWs_head_of_lstripC_fixed (a : Char) (t : List Char)
    (h : lstripC (a :: t) = a :: t) : pyWs a = false := by
  by_contra hh
  have ha : pyWs a = true := by simpa using hh
  unfold lstripC at h
  rw [List.dropWhile_cons_of_pos ha] at h
  have hlen : (t.dropWhile pyWs).length ≤ t.length :=
    (List.dropWhile_sublist pyWs).length_le
  rw [h] at hlen
  simp at hlen

theorem stripC_cons_of_neg (a : Char) (t : List Char) (h : pyWs a = false) :
    ∃ u, stripC (a :: t) = a :: u := by
  unfold stripC
  rw [lstripC_cons_of_neg a t h]
  exact rstripC_cons_of_neg a t h

theorem lstripC_rstripC_of_fixed (l : List Char) (h : lstripC l = l) :
    lstripC (rstripC l) = rstripC l := by
  cases l with
  | nil => rfl
  | cons a t =>
    have ha := pyWs_head_of_lstripC_fixed a t h
    obtain ⟨u, hu⟩ := rstripC_cons_of_neg a t ha
    rw [hu]
    exact lstripC_cons_of_neg a u ha

theorem stripC_idem (l : List Char) : stripC (stripC l) = stripC l := by
  unfold stripC
  rw [lstripC_rstripC_of_fixed (lstripC l) (lstripC_idem l), rstripC_idem]

theorem rstripC_stripC (l : List Char) : rstripC (stripC l) = stripC l := by
  unfold stripC
  rw [rstripC_idem]

theorem cleanStep1_eq_stripC (code : List Char) (h : ∃ t, code = stripC t) :
    ∃ t, cleanStep1 code = stripC t := by
  unfold cleanStep1
  split
  · exact ⟨_, rfl⟩
  · split
    · exact ⟨_, rfl⟩
    · exact h

theorem cleanStep2_eq_stripC (code : List Char) (h : ∃ t, code = stripC t) :
    ∃ t, cleanStep2 code = stripC t := by
  unfold cleanStep2
  split
  · exact ⟨_, rfl⟩
  · exact h

theorem cleanChars_eq_stripC (s : List Char) : ∃ t, cleanChars s = stripC t :=
  cleanStep2_eq_stripC _ (cleanStep1_eq_stripC _ ⟨s, rfl⟩)

theorem stripC_cleanChars (s : List Char) : stripC (cleanChars s) = cleanChars s := by
  obtain ⟨t, ht⟩ := cleanChars_eq_stripC s
  rw [ht, stripC_idem]

/-! ## Helper lemmas about strings, prefixes, substrings and digits -/

theorem data_append (a b : String) : (a ++ b).data = a.data ++ b.data := by
  cases a; cases b; rfl

theorem string_mk_data (s : String) : String.mk s.data = s := rfl

theorem data_eq_nil_iff (s : String) : s.data = [] ↔ s = "" := by
  constructor
  · intro h
    apply String.ext
    rw [h]
  · intro h
    rw [h]

theorem isPrefixOf_append_left (p q l : List Char)
    (h : (p ++ q).isPrefixOf l = true) : p.isPrefixOf l = true := by
  induction p generalizing l with
  | nil => simp
  | cons a p ih =>
    cases l with
    | nil => simp [List.isPrefixOf] at h
    | cons b t =>
      simp only [List.cons_append, List.isPrefixOf, Bool.and_eq_true] at h ⊢
      exact ⟨h.1, ih t h.2⟩

theorem isPrefixOf_append_of_isPrefixOf (p l₁ l₂ : List Char)
    (h : p.isPrefixOf l₁ = true) : p.isPrefixOf (l₁ ++ l₂) = true := by
  induction p generalizing l₁ with
  | nil => simp
  | cons a p ih =>
    cases l₁ with
    | nil => simp [List.isPrefixOf] at h
    | cons b t =>
      simp only [List.cons_append, List.isPrefixOf, Bool.and_eq_true] at h ⊢
      exact ⟨h.1, ih t h.2⟩

theorem hasSub_of_isPrefixOf (pat l : List Char) (h : pat.isPrefixOf l = true) :
    hasSub pat l = true := by
  cases l with
  | nil => simpa [hasSub] using h
  | cons c t => simp [hasSub, h]

theorem hasSub_append_right (pat l₁ l₂ : List Char) (h : hasSub pat l₂ = true) :
    hasSub pat (l₁ ++ l₂) = true := by
  induction l₁ with
  | nil => simpa using h
  | cons c t ih =>
    simp only [List.cons_append, hasSub, Bool.or_eq_true]
    exact Or.inr ih

theorem pyWs_digitChar (d : Nat) : pyWs (digitChar d) = false := by
  unfold digitChar
  repeat' split
  all_goals decide

theorem natReprAux_no_ws (fuel n : Nat) :
    ∀ c ∈ natReprAux fuel n, pyWs c = false := by
  induction fuel generalizing n with
  | zero => intro c hc; simp [natReprAux] at hc
  | succ fuel ih =>
    intro c hc
    unfold natReprAux at hc
    split at hc
    · rw [List.mem_singleton] at hc
      subst hc
      exact pyWs_digitChar n
    · rw [List.mem_append] at hc
      rcases hc with hc | hc
      · exact ih (n / 10) c hc
      · rw [List.mem_singleton] at hc
        subst hc
        exact pyWs_digitChar (n % 10)

theorem natReprAux_ne_nil (fuel n : Nat) : natReprAux (fuel + 1) n ≠ [] := by
  unfold natReprAux
  split
  · simp
  · simp

theorem intStr_no_ws (i : Int) : ∀ c ∈ (intStr i).data, pyWs c = false := by
  unfold intStr
  split
  · intro c hc
    rw [show (String.mk ('-' :: natStr (-i).toNat)).data
        = '-' :: natStr (-i).toNat from rfl, List.mem_cons] at hc
    rcases hc with hc | hc
    · subst hc; decide
    · exact natReprAux_no_ws _ _ c hc
  · intro c hc
    exact natReprAux_no_ws _ _ c hc

theorem intStr_data_ne_nil (i : Int) : (intStr i).data ≠ [] := by
  unfold intStr
  split
  · simp
  · exact natReprAux_ne_nil _ _

theorem rstripC_eq_self_of_no_ws (l : List Char)
    (h : ∀ c ∈ l, pyWs c = false) : rstripC l = l := by
  unfold rstripC
  have hrev : l.reverse.dropWhile pyWs = l.reverse := by
    cases hr : l.reverse with
    | nil => rfl
    | cons a t =>
      have ha : a ∈ l := by
        rw [← List.mem_reverse, hr]
        exact List.mem_cons_self a t
      rw [List.dropWhile_cons_of_neg (by simp [h a ha])]
  rw [hrev, List.reverse_reverse]

/-! ## Shape of the completed-process rendering -/

theorem pyStrip_data (s : String) : (pyStrip s).data = stripC s.data := rfl

theorem strip_head_of_neg (s : String) (c : Char) (u : List Char)
    (hc : pyWs c = false) (h : s.data = c :: u) :
    ∃ v, (pyStrip s).data = c :: v := by
  rw [pyStrip_data, h]
  exact stripC_cons_of_neg c u hc

theorem ne_empty_of_data_cons (s : String) (c : Char) (u : List Char)
    (h : s.data = c :: u) : s ≠ "" := by
  intro he
  rw [(data_eq_nil_iff s).mpr he] at h
  cases h

theorem data_append_head (a b : String) (c : Char) (u : List Char)
    (h : a.data = c :: u) : (a ++ b).data = c :: (u ++ b.data) := by
  rw [data_append, h]
  rfl

theorem outBlock_head (out : String) :
    (outBlock out).data = 'S' :: ("tandard Output:\n".data ++ (pyStrip out).data) := by
  unfold outBlock
  exact data_append_head _ _ 'S' _ (by decide)

theorem errBlock_head (err : String) :
    (errBlock err).data = 'S' :: ("tandard Error:\n".data ++ (pyStrip err).data) := by
  unfold errBlock
  exact data_append_head _ _ 'S' _ (by decide)

theorem joinNL_cons_head (x : String) (xs : List String) (c : Char) (u : List Char)
    (h : x.data = c :: u) : ∃ v, (joinNL (x :: xs)).data = c :: v := by
  cases xs with
  | nil => exact ⟨u, h⟩
  | cons y ys =>
    refine ⟨(u ++ "\n".data) ++ (joinNL (y :: ys)).data, ?_⟩
    rw [show joinNL (x :: y :: ys) = x ++ "\n" ++ joinNL (y :: ys) from rfl,
      data_append, data_append, h]
    simp

theorem renderMsg2_head (msg : String) (rc : Int) (u : List Char)
    (h : msg.data = 'S' :: u) : ∃ v, (renderMsg2 msg rc).data = 'S' :: v := by
  have hne : msg ≠ "" := ne_empty_of_data_cons msg 'S' u h
  unfold renderMsg2
  rw [if_neg (fun hx => hne hx.1), if_neg (fun hx => hne hx.1)]
  split
  · exact ⟨u ++ (noteMsg rc).data, by rw [data_append, h]; rfl⟩
  · exact ⟨u, h⟩

theorem renderCompleted_S_head (out err : String) (rc : Int) (x : String)
    (xs : List String) (u : List Char)
    (hparts : renderParts out err = x :: xs) (hx : x.data = 'S' :: u) :
    ∃ v, (renderCompleted out err rc).data = 'S' :: v := by
  obtain ⟨v1, hv1⟩ := joinNL_cons_head x xs 'S' u hx
  obtain ⟨v2, hv2⟩ := renderMsg2_head (joinNL (x :: xs)) rc v1 hv1
  unfold renderCompleted
  rw [hparts]
  exact strip_head_of_neg _ 'S' v2 (by decide) hv2

theorem stripC_failMsg_data (rc : Int) :
    stripC (failMsg rc).data = (failMsg rc).data := by
  have hdata : (failMsg rc).data
      = (failPre.data ++ (intStr rc).data) ++ failSuf.data := by
    unfold failMsg
    rw [data_append, data_append]
  have hsuf : rstripC failSuf.data = failSuf.data := by decide
  have hsufne : rstripC failSuf.data ≠ [] := by
    rw [hsuf]
    decide
  have hcons : (failMsg rc).data
      = 'C' :: ("ode execution failed with return code ".data
          ++ ((intStr rc).data ++ failSuf.data)) := by
    rw [hdata, List.append_assoc,
      (by decide : failPre.data = 'C' :: "ode execution failed with return code ".data)]
    rfl
  unfold stripC
  rw [show lstripC (failMsg rc).data = (failMsg rc).data from by
    rw [hcons]; exact lstripC_cons_of_neg _ _ (by decide)]
  rw [hdata, rstripC_append_right _ _ hsufne, hsuf]

theorem pyStrip_failMsg (rc : Int) : pyStrip (failMsg rc) = failMsg rc := by
  unfold pyStrip
  rw [stripC_failMsg_data, string_mk_data]

theorem failMsg_data (rc : Int) :
    (failMsg rc).data = failPre.data ++ ((intStr rc).data ++ failSuf.data) := by
  unfold failMsg
  rw [data_append, data_append, List.append_assoc]

theorem renderCompleted_shape (out err : String) (rc : Int) :
    (∃ u, (renderCompleted out err rc).data = 'S' :: u) ∨
    renderCompleted out err rc = successMsg ∨
    (∃ u, (renderCompleted out err rc).data = failPre.data ++ u) := by
  by_cases ho : out = ""
  · by_cases he : err = ""
    · have hparts : renderParts out err = [] := by simp [renderParts, ho, he]
      by_cases hrc : rc = 0
      · right; left
        unfold renderCompleted
        rw [hparts, hrc,
          show renderMsg2 (joinNL []) 0 = successMsg from by
            unfold renderMsg2 joinNL
            rw [if_pos ⟨rfl, rfl⟩]]
        decide
      · right; right
        unfold renderCompleted
        rw [hparts,
          show renderMsg2 (joinNL []) rc = failMsg rc from by
            unfold renderMsg2 joinNL
            rw [if_neg (fun hx => hrc hx.2), if_pos ⟨rfl, hrc⟩]]
        exact ⟨(intStr rc).data ++ failSuf.data, by
          rw [pyStrip_failMsg, failMsg_data]⟩
    · left
      have hparts : renderParts out err = errBlock err :: [] := by
        simp [renderParts, ho, he]
      exact renderCompleted_S_head out err rc _ _ _ hparts (errBlock_head err)
  · left
    have hparts : renderParts out err
        = outBlock out :: (if err = "" then [] else [errBlock err]) := by
      simp [renderParts, ho]
    exact renderCompleted_S_head out err rc _ _ _ hparts (outBlock_head out)

/-! ## Distinctness of the rendered sentences -/

theorem exnMsg_head (m : String) : ∃ w, (exnMsg m).data = 'A' :: w := by
  unfold exnMsg
  exact ⟨_, data_append_head _ _ 'A'
    "n unexpected error occurred during Python code execution: ".data (by decide)⟩

theorem exnMsg_ne_renderCompleted (m out err : String) (rc : Int) :
    exnMsg m ≠ renderCompleted out err rc := by
  intro h
  have hd := congrArg String.data h
  obtain ⟨w, hw⟩ := exnMsg_head m
  rw [hw] at hd
  rcases renderCompleted_shape out err rc with ⟨u, hu⟩ | hs | ⟨u, hu⟩
  · rw [hu, List.cons.injEq] at hd
    exact absurd hd.1 (by decide)
  · rw [hs,
      (by decide : successMsg.data
        = 'C' :: "ode executed successfully with no output to stdout or stderr.".data),
      List.cons.injEq] at hd
    exact absurd hd.1 (by decide)
  · rw [hu,
      (by decide : failPre.data = 'C' :: "ode execution failed with return code ".data),
      List.cons_append, List.cons.injEq] at hd
    exact absurd hd.1 (by decide)

theorem exnMsg_ne_cancelMsg (m : String) : exnMsg m ≠ cancelMsg := by
  intro h
  have hd := congrArg String.data h
  obtain ⟨w, hw⟩ := exnMsg_head m
  rw [hw,
    (by decide : cancelMsg.data = 'C' :: "ode execution CANCELED by user.".data),
    List.cons.injEq] at hd
  exact absurd hd.1 (by decide)

theorem renderCompleted_ne_cancelMsg (out err : String) (rc : Int) :
    renderCompleted out err rc ≠ cancelMsg := by
  intro h
  have hd := congrArg String.data h
  rcases renderCompleted_shape out err rc with ⟨u, hu⟩ | hs | ⟨u, hu⟩
  · rw [hu,
      (by decide : cancelMsg.data = 'C' :: "ode execution CANCELED by user.".data),
      List.cons.injEq] at hd
    exact absurd hd.1 (by decide)
  · rw [hs] at h
    exact absurd h (by decide)
  · rw [hu] at hd
    have h15 := congrArg (fun l => l[15]?) hd
    simp only at h15
    rw [List.getElem?_append_left (by decide)] at h15
    exact absurd h15 (by decide)

/-! ## Branch computations for the message-fixup chain -/

theorem renderMsg2_of_hasSub (msg : String) (rc : Int) (hne : msg ≠ "")
    (hsub : hasSub seLabel msg.data = true) : renderMsg2 msg rc = msg := by
  unfold renderMsg2
  rw [if_neg (fun hx => hne hx.1), if_neg (fun hx => hne hx.1),
    if_neg (by intro hx; rw [hsub] at hx; exact absurd hx.2 (by decide))]

theorem renderMsg2_note (msg : String) (rc : Int) (hne : msg ≠ "") (hrc : rc ≠ 0)
    (hsub : hasSub seLabel msg.data = false) :
    renderMsg2 msg rc = msg ++ noteMsg rc := by
  unfold renderMsg2
  rw [if_neg (fun hx => hne hx.1), if_neg (fun hx => hne hx.1), if_pos ⟨hrc, hsub⟩]

theorem pyStrip_fixed_of (s : String) (c : Char) (u l₁ l₂ : List Char)
    (hc : pyWs c = false) (hhead : s.data = c :: u)
    (hsplit : s.data = l₁ ++ l₂) (hr : rstripC l₂ = l₂) (hne : l₂ ≠ []) :
    pyStrip s = s := by
  unfold pyStrip stripC
  rw [show lstripC s.data = s.data from by
    rw [hhead]; exact lstripC_cons_of_neg _ _ hc]
  rw [hsplit, rstripC_append_right _ _ (by rw [hr]; exact hne), hr, ← hsplit,
    string_mk_data]

theorem cleanChars_fixed (y : List Char)
    (hy : stripC y = y)
    (h1 : fenceMarker.isPrefixOf y = false)
    (h2 : fenceMarker.isSuffixOf y = false) :
    cleanChars y = y := by
  have hpy : ¬ fencePython.isPrefixOf y = true := by
    intro hh
    rw [(by decide : fencePython = fenceMarker ++ "python".data)] at hh
    have hb := isPrefixOf_append_left fenceMarker "python".data y hh
    rw [hb] at h1
    exact absurd h1 (by decide)
  unfold cleanChars cleanStep1 cleanStep2
  rw [hy]
  rw [if_neg hpy]
  rw [if_neg (show ¬ fenceMarker.isPrefixOf y = true from by rw [h1]; decide)]
  rw [if_neg (show ¬ fenceMarker.isSuffixOf y = true from by rw [h2]; decide)]

theorem renderCompleted_empty_fail (rc : Int) (hrc : rc ≠ 0) :
    renderCompleted "" "" rc = failMsg rc := by
  unfold renderCompleted
  rw [show renderParts "" "" = [] from by simp [renderParts]]
  rw [show renderMsg2 (joinNL []) rc = failMsg rc from by
    unfold renderMsg2 joinNL
    rw [if_neg (fun hx => hrc hx.2), if_pos ⟨rfl, hrc⟩]]
  exact pyStrip_failMsg rc

theorem renderCompleted_out_note (out : String) (rc : Int) (hrc : rc ≠ 0)
    (ho : out ≠ "")
    (hsub : hasSub seLabel (outBlock out).data = false) :
    (renderCompleted out "" rc).data = (outBlock out).data ++ (noteMsg rc).data := by
  unfold renderCompleted
  rw [show renderParts out "" = [outBlock out] from by simp [renderParts, ho]]
  rw [show joinNL [outBlock out] = outBlock out from rfl]
  rw [renderMsg2_note (outBlock out) rc
    (ne_empty_of_data_cons _ 'S' _ (outBlock_head out)) hrc hsub]
  have hsplit : (outBlock out ++ noteMsg rc).data
      = ((outBlock out).data ++ "\nCode execution finished with return code: ".data)
          ++ (intStr rc).data := by
    rw [data_append,
      show (noteMsg rc).data
          = "\nCode execution finished with return code: ".data ++ (intStr rc).data
        from by unfold noteMsg; rw [data_append],
      List.append_assoc]
  rw [pyStrip_fixed_of (outBlock out ++ noteMsg rc) 'S' _ _ _ (by decide)
    (data_append_head _ _ 'S' _ (outBlock_head out)) hsplit
    (rstripC_eq_self_of_no_ws _ (intStr_no_ws rc)) (intStr_data_ne_nil rc)]
  rw [data_append]

/-! ## Claim theorems -/

/-- Claim C1: for every non-empty normalized source, a confirmation
response whose lowercase form is not the single letter y (including the
word yes spelled out) makes `_run` return the fixed cancellation
sentence, after prompting, without spawning an interpreter process. -/
theorem declining_confirmation_cancels (code confirm : String) (proc : ProcResult)
    (hne : cleanCode code ≠ "") (hconf : pyLower confirm ≠ "y") :
    runTool code confirm proc = ⟨cancelMsg, true, false⟩ := by
  unfold runTool
  rw [if_neg hne, if_pos hconf]

/-- Witness for claim C1 at concrete input, declining with "yes". -/
theorem declining_confirmation_cancels_witness :
    cleanCode "print(1)" ≠ "" ∧ pyLower "yes" ≠ "y" ∧
      runTool "print(1)" "yes" (ProcResult.completed "x" "" 0)
        = ⟨cancelMsg, true, false⟩ :=
  ⟨by decide, by decide,
    declining_confirmation_cancels "print(1)" "yes" (ProcResult.completed "x" "" 0)
      (by decide) (by decide)⟩

/-- Claim C2: whenever cleaning yields the empty string, `_run` returns
the fixed no-valid-code sentence without prompting for confirmation and
without spawning a process, for every confirmation response and every
process oracle. -/
theorem empty_input_skips_prompt (code confirm : String) (proc : ProcResult)
    (h : cleanCode code = "") :
    runTool code confirm proc = ⟨emptyMsg, false, false⟩ := by
  unfold runTool
  rw [if_pos h]

/-- Witness for claim C2 at a concrete whitespace-and-fence-only input. -/
theorem empty_input_skips_prompt_witness :
    cleanCode "```" = "" ∧
      runTool "```" "y" (ProcResult.completed "x" "" 0)
        = ⟨emptyMsg, false, false⟩ :=
  ⟨by decide,
    empty_input_skips_prompt "```" "y" (ProcResult.completed "x" "" 0) (by decide)⟩

/-- Claim C3 (counterexample): the normalizer is not idempotent — on
the stacked-fence input below, one pass leaves a leading fence marker
that a second pass removes. -/
theorem cleanCode_not_idempotent :
    cleanCode (cleanCode "``````x") ≠ cleanCode "``````x" := by decide

/-- Claim C3 (amended): the normalizer is idempotent on every input
whose normalized form neither begins nor ends with a fence marker. -/
theorem cleanCode_idem_without_edge_fences (s : String)
    (h1 : fenceMarker.isPrefixOf (cleanCode s).data = false)
    (h2 : fenceMarker.isSuffixOf (cleanCode s).data = false) :
    cleanCode (cleanCode s) = cleanCode s :=
  congrArg String.mk
    (cleanChars_fixed (cleanChars s.data) (stripC_cleanChars s.data) h1 h2)

/-- Witness for the amended claim C3 at a concrete fenced input. -/
theorem cleanCode_idem_without_edge_fences_witness :
    fenceMarker.isPrefixOf (cleanCode "```python\nprint(1)\n```").data = false ∧
    fenceMarker.isSuffixOf (cleanCode "```python\nprint(1)\n```").data = false ∧
    cleanCode (cleanCode "```python\nprint(1)\n```")
      = cleanCode "```python\nprint(1)\n```" :=
  ⟨by decide, by decide,
    cleanCode_idem_without_edge_fences "```python\nprint(1)\n```"
      (by decide) (by decide)⟩

/-- Claim C4: the three specified normalizer test vectors. -/
theorem cleanCode_test_vectors :
    cleanCode "```python\nprint(1)\n```" = "print(1)" ∧
    cleanCode "```\nprint(1)\n```" = "print(1)" ∧
    cleanCode "   \n  " = "" := by decide

/-- Claim C5 (counterexample): the normalizer's output can end with a
fence marker, so the no-edge-fence part of the invariant fails. -/
theorem cleanCode_output_keeps_fence :
    cleanCode "x``````" = "x```" ∧
      fenceMarker.isSuffixOf (cleanCode "x``````").data = true := by decide

/-- Claim C5 (amended): for every input the normalizer's output carries
no leading or trailing whitespace (stripping it again changes nothing),
though a fence marker can survive at either edge. -/
theorem cleanCode_output_stripped (s : String) :
    pyStrip (cleanCode s) = cleanCode s :=
  congrArg String.mk (stripC_cleanChars s.data)

/-- Claim C6 (counterexample): with stderr empty and exit code 3, a
stdout that contains the text Standard Error suppresses the return-code
note — the rendering carries no digit 3 anywhere, so the exit code is
not stated. -/
theorem nonzero_exit_silent_counterexample :
    (3 : Int) ≠ 0 ∧ ("Standard Error" : String) ≠ "" ∧
    renderCompleted "Standard Error" "" 3 = "Standard Output:\nStandard Error" ∧
    hasSub (intStr 3).data (renderCompleted "Standard Error" "" 3).data = false := by
  decide

/-- Claim C6 (amended): with nonzero exit code and empty stderr, the
rendering states the exit code — as the fixed failure sentence when
stdout is empty, and as the trailing return-code note after the stdout
block when stdout is non-empty — provided the stdout block does not
itself contain the text Standard Error. -/
theorem nonzero_exit_reported (out err : String) (rc : Int)
    (hrc : rc ≠ 0) (herr : err = "")
    (hsub : hasSub seLabel (outBlock out).data = false) :
    (out = "" → renderCompleted out err rc = failMsg rc) ∧
    (out ≠ "" → (renderCompleted out err rc).data
        = (outBlock out).data ++ (noteMsg rc).data) := by
  subst herr
  constructor
  · intro ho
    rw [ho]
    exact renderCompleted_empty_fail rc hrc
  · intro ho
    exact renderCompleted_out_note out rc hrc ho hsub

/-- Witness for the amended claim C6 at concrete stdout and exit code. -/
theorem nonzero_exit_reported_witness :
    (renderCompleted "hello" "" 3).data
      = (outBlock "hello").data ++ (noteMsg 3).data :=
  (nonzero_exit_reported "hello" "" 3 (by decide) rfl (by decide)).2 (by decide)

/-- Claim C7: every process outcome — normal completion, deadline
expiry, or an exception inside the try block — is returned to the
caller as one of the rendered string values, and the mechanism-failure
rendering is never equal to the rendering of a completed run with
nonzero exit code. -/
theorem run_failures_are_values (code confirm out err po pe m : String)
    (rc rcb : Int) (hrcb : rcb ≠ 0) :
    (runTool code confirm (ProcResult.completed out err rc)).output
      ∈ [emptyMsg, cancelMsg, renderCompleted out err rc] ∧
    (runTool code confirm (ProcResult.timeout po pe)).output
      ∈ [emptyMsg, cancelMsg, timeoutMsg] ∧
    (runTool code confirm (ProcResult.exn m)).output
      ∈ [emptyMsg, cancelMsg, exnMsg m] ∧
    exnMsg m ≠ renderCompleted out err rcb := by
  refine ⟨?_, ?_, ?_, exnMsg_ne_renderCompleted m out err rcb⟩ <;>
    · unfold runTool
      split
      · simp
      · split
        · simp
        · simp

/-- Witness for claim C7 at concrete inputs. -/
theorem run_failures_are_values_witness :
    (runTool "print(1)" "y" (ProcResult.completed "o" "e" 0)).output
      ∈ [emptyMsg, cancelMsg, renderCompleted "o" "e" 0] ∧
    (runTool "print(1)" "y" (ProcResult.timeout "po" "pe")).output
      ∈ [emptyMsg, cancelMsg, timeoutMsg] ∧
    (runTool "print(1)" "y" (ProcResult.exn "boom")).output
      ∈ [emptyMsg, cancelMsg, exnMsg "boom"] ∧
    exnMsg "boom" ≠ renderCompleted "o" "e" 3 :=
  run_failures_are_values "print(1)" "y" "o" "e" "po" "pe" "boom" 0 3 (by decide)

/-- Claim C8: an approved execution whose child hits the deadline
returns the fixed timeout sentence naming the 60-second budget, for
every partial output the child may have produced — the partial streams
never influence the result. -/
theorem timeout_fixed_sentence_discards_output (code confirm po pe : String)
    (hne : cleanCode code ≠ "") (hy : pyLower confirm = "y") :
    runTool code confirm (ProcResult.timeout po pe) = ⟨timeoutMsg, true, true⟩ ∧
    timeoutMsg = "Error: Code execution timed out after "
        ++ intStr (executionTimeout : Int) ++ " seconds." := by
  constructor
  · unfold runTool
    rw [if_neg hne, if_neg (fun hx => hx hy)]
  · decide

/-- Witness for claim C8 at concrete code, approval and partial output. -/
theorem timeout_fixed_sentence_discards_output_witness :
    runTool "print(1)" "Y" (ProcResult.timeout "some out" "some err")
      = ⟨timeoutMsg, true, true⟩ ∧
    timeoutMsg = "Error: Code execution timed out after "
        ++ intStr (executionTimeout : Int) ++ " seconds." :=
  timeout_fixed_sentence_discards_output "print(1)" "Y" "some out" "some err"
    (by decide) (by decide)

/-- Claim C9: the cancellation sentence is machine-recognizable — the
rendering of each non-cancelled outcome (empty input, any completed
run, timeout, mechanism failure) is never equal to it. -/
theorem cancel_sentence_unique (out err m : String) (rc : Int) :
    emptyMsg ≠ cancelMsg ∧ timeoutMsg ≠ cancelMsg ∧
    exnMsg m ≠ cancelMsg ∧ renderCompleted out err rc ≠ cancelMsg :=
  ⟨by decide, by decide, exnMsg_ne_cancelMsg m,
    renderCompleted_ne_cancelMsg out err rc⟩

/-- Claim C10 (counterexample): with non-empty stdout and a whitespace-only
non-empty stderr, the final overall strip removes the trailing newline,
so the rendering is not the exact labeled concatenation. -/
theorem both_streams_trailing_strip_counterexample :
    ("a" : String) ≠ "" ∧ (" " : String) ≠ "" ∧
    renderCompleted "a" " " 0
      ≠ "Standard Output:\n" ++ pyStrip "a" ++ "\n"
          ++ "Standard Error:\n" ++ pyStrip " " := by decide

/-- Claim C10 (amended): for every completed run with both streams
non-empty whose stderr contains a non-whitespace character, the
rendering is exactly the stdout block, a newline, and the stderr block
(each stream whitespace-stripped), for every exit code. -/
theorem both_streams_exact_rendering (out err : String) (rc : Int)
    (ho : out ≠ "") (he : err ≠ "") (hse : pyStrip err ≠ "") :
    renderCompleted out err rc = outBlock out ++ "\n" ++ errBlock err := by
  obtain ⟨u0, hu0⟩ : ∃ u, (outBlock out ++ "\n" ++ errBlock err).data = 'S' :: u :=
    ⟨_, data_append_head _ _ 'S' _ (data_append_head _ _ 'S' _ (outBlock_head out))⟩
  have herrdata : (errBlock err).data
      = "Standard Error:\n".data ++ (pyStrip err).data := by
    unfold errBlock
    rw [data_append]
  have hsub : hasSub seLabel (outBlock out ++ "\n" ++ errBlock err).data = true := by
    rw [data_append]
    exact hasSub_append_right _ _ _
      (hasSub_of_isPrefixOf _ _ (by
        rw [herrdata]
        exact isPrefixOf_append_of_isPrefixOf _ _ _ (by decide)))
  unfold renderCompleted
  rw [show renderParts out err = [outBlock out, errBlock err] from by
    simp [renderParts, ho, he]]
  rw [show joinNL [outBlock out, errBlock err]
      = outBlock out ++ "\n" ++ errBlock err from rfl]
  rw [renderMsg2_of_hasSub _ rc (ne_empty_of_data_cons _ 'S' u0 hu0) hsub]
  exact pyStrip_fixed_of _ 'S' u0
    ((outBlock out ++ "\n").data ++ "Standard Error:\n".data) (pyStrip err).data
    (by decide) hu0
    (by rw [data_append, herrdata, List.append_assoc])
    (by
      rw [show (pyStrip err).data = stripC err.data from rfl]
      exact rstripC_stripC err.data)
    (fun hh => hse ((data_eq_nil_iff (pyStrip err)).mp hh))

/-- Witness for the amended claim C10 at concrete streams. -/
theorem both_streams_exact_rendering_witness :
    renderCompleted "a" "b" 7 = outBlock "a" ++ "\n" ++ errBlock "b" :=
  both_streams_exact_rendering "a" "b" 7 (by decide) (by decide) (by decide)

end CustomCodeAgent
